import Mathlib

/-!
Verification of the paper-downloader acquisition pipeline.

Shallow embedding of the repository in Lean 4. Pure helpers become Lean
functions; stateful code becomes explicit state passing; network and disk
effects become oracle parameters (a function from request index to response,
and an explicit file-content state). Machine integers are Nat; floating
point delays are modelled as rationals (the concrete values used are exact
in both representations).

Source files embedded:
  src/vpn.py               (VPNSwitcher: rotation scheduler)
  src/download.py          (is_pdf, download_pdf, get_transform_urls)
  src/core_api.py          (CORE adapter find_pdf_url with backoff)
  src/proxy.py             (rewrite_url, get_proxy_candidates)
  scripts/download_papers.py (phase candidate filters, enrich_dois, resets)

The manifest helper module (src/manifest.py) is imported by the pipeline but
is not part of the provided sources; its operations are modelled from the
specification, with a doc comment marking each such definition.
-/

namespace PaperDL

/-! ## String utilities shared by the embedding -/

/-- Occurrence of pat as a contiguous sublist of l, by structural scan.
With strContains below this models the Python pat in s membership test. -/
def listContainsSub : List Char → List Char → Bool
  | [], pat => pat.isEmpty
  | c :: tl, pat => pat.isPrefixOf (c :: tl) || listContainsSub tl pat

/-- Substring test: models the Python pat in s membership test. -/
def strContains (s pat : String) : Bool :=
  listContainsSub s.toList pat.toList

/-- Suffix of l strictly after the first occurrence of pat, if any. -/
def afterFirst (pat : List Char) : List Char → Option (List Char)
  | [] => if pat.isEmpty then some [] else none
  | c :: tl =>
    if pat.isPrefixOf (c :: tl) then some ((c :: tl).drop pat.length)
    else afterFirst pat tl

/-- Replace the first occurrence of pat by rep, models Python
str.replace(pat, rep, 1). -/
def replaceFirstL (pat rep : List Char) : List Char → List Char
  | [] => []
  | c :: tl =>
    if !pat.isEmpty && pat.isPrefixOf (c :: tl) then rep ++ (c :: tl).drop pat.length
    else c :: replaceFirstL pat rep tl

/-- Fuel-indexed worker for replaceAllL; every step consumes at least one
character, so fuel equal to the list length never runs out. -/
def replaceAllGo (pat rep : List Char) : Nat → List Char → List Char
  | 0, l => l
  | _ + 1, [] => []
  | fuel + 1, c :: tl =>
    if !pat.isEmpty && pat.isPrefixOf (c :: tl) then
      rep ++ replaceAllGo pat rep fuel (tl.drop (pat.length - 1))
    else c :: replaceAllGo pat rep fuel tl

/-- Replace every occurrence of pat by rep, models Python
str.replace(pat, rep). -/
def replaceAllL (pat rep l : List Char) : List Char :=
  replaceAllGo pat rep l.length l

/-- Suffix of l after its last occurrence of ch, or l when ch is absent:
models Python str.rpartition in the hostname computation. -/
def afterLastChar (ch : Char) (l : List Char) : List Char :=
  (l.reverse.takeWhile (fun c => c != ch)).reverse

/-- Models Python urlparse(url).hostname (with None mapped to "") for
absolute URLs of the form scheme://netloc/...: the netloc is what follows
the first "://" up to the first of "/", "?" or "#"; the hostname is the
netloc without any userinfo@ part and without a :port suffix, lowercased.
For a URL without "://" the result is "", matching hostname None. -/
def urlHostname (url : String) : String :=
  match afterFirst "://".toList url.toList with
  | none => ""
  | some rest =>
    let netloc := rest.takeWhile (fun c => c != '/' && c != '?' && c != '#')
    let afterUser := afterLastChar '@' netloc
    let host := afterUser.takeWhile (fun c => c != ':')
    String.mk (host.map Char.toLower)

/-- Models Python urlparse(url).path for absolute URLs: what follows the
netloc up to the first of "?" or "#". For a URL without "://" the whole
string up to "?" or "#" is the path. -/
def urlPath (url : String) : String :=
  match afterFirst "://".toList url.toList with
  | none => String.mk (url.toList.takeWhile (fun c => c != '?' && c != '#'))
  | some rest =>
    let afterHost := rest.dropWhile (fun c => c != '/' && c != '?' && c != '#')
    String.mk (afterHost.takeWhile (fun c => c != '?' && c != '#'))

/-- Models Python rstrip("/"): drop trailing slash characters. -/
def rstripSlash (s : String) : String :=
  String.mk (s.toList.reverse.dropWhile (fun c => c == '/')).reverse

/-- Suffix test on strings via character lists. -/
def strEndsWith (s pat : String) : Bool :=
  pat.toList.isSuffixOf s.toList

/-! ## Rotation Scheduler (src/vpn.py, class VPNSwitcher)

The mutable attributes of VPNSwitcher are the four fields of VPNState;
the configuration attributes read from the config dict are VPNConfig.
Environment effects (clock reads, randomness, and whether the underlying
connect command succeeds) are passed explicitly in RotateEnv. The
disconnect call, the cooldown and post-connect sleeps, and the best-effort
IP-change verification touch no VPNState field: verification never turns a
connected rotation into a failure (vpn.py lines 186-193), so rotate is
faithfully a function of connectOk alone. -/

inductive Strategy
  | random
  | sequential
  | smart
deriving DecidableEq, Repr

structure VPNConfig where
  strategy : Strategy
  preferredLocations : List String
  connectionTimeout : Nat
  postConnectDelay : Nat
  minRotationInterval : Nat
  verifyIp : Bool
  maxFailures : Nat
  rotateEveryN : Nat
deriving Repr

structure VPNState where
  lastRotationTime : ℚ
  recentLocations : List String
  sequentialIndex : Nat
  consecutiveFailures : Nat
deriving Repr

/-- Initial VPNSwitcher state set in __init__ (vpn.py lines 59-62). -/
def VPNState.init : VPNState :=
  { lastRotationTime := 0, recentLocations := [], sequentialIndex := 0, consecutiveFailures := 0 }

/-- Environment inputs consumed by one rotate() call. -/
structure RotateEnv where
  rand : Nat
  connectOk : Bool
  endTime : ℚ

/-- Models _pick_next_location (vpn.py lines 140-153). The random draw is modelled
by indexing the candidate list with the environment random number modulo
its length. Only the sequential strategy mutates state (the cursor). -/
def pickNextLocation (cfg : VPNConfig) (s : VPNState) (rand : Nat) : String × VPNState :=
  match cfg.strategy with
  | .random => (cfg.preferredLocations.getD (rand % cfg.preferredLocations.length) "", s)
  | .sequential =>
    (cfg.preferredLocations.getD (s.sequentialIndex % cfg.preferredLocations.length) "",
     { s with sequentialIndex := s.sequentialIndex + 1 })
  | .smart =>
    let recent5 := s.recentLocations.drop (s.recentLocations.length - 5)
    let avail := cfg.preferredLocations.filter (fun loc => !recent5.contains loc)
    let avail := if avail.isEmpty then cfg.preferredLocations else avail
    (avail.getD (rand % avail.length) "", s)

/-- rotate (vpn.py lines 155-198). On connect failure the consecutive
failure counter is incremented and the call returns false; on connect
success the chosen location is recorded, the rotation timestamp is set and
the counter is reset to 0, returning true. -/
def rotate (cfg : VPNConfig) (env : RotateEnv) (s : VPNState) : VPNState × Bool :=
  let picked := pickNextLocation cfg s env.rand
  if env.connectOk then
    ({ picked.2 with
        recentLocations := picked.2.recentLocations ++ [picked.1]
        lastRotationTime := env.endTime
        consecutiveFailures := 0 }, true)
  else
    ({ picked.2 with consecutiveFailures := picked.2.consecutiveFailures + 1 }, false)

/-- should_rotate_proactively (vpn.py lines 200-202). -/
def shouldRotateProactively (cfg : VPNConfig) (papersCompleted : Nat) : Bool :=
  decide (0 < papersCompleted) && papersCompleted % cfg.rotateEveryN == 0

/-- has_failed_permanently (vpn.py lines 204-206). -/
def hasFailedPermanently (cfg : VPNConfig) (s : VPNState) : Bool :=
  decide (cfg.maxFailures ≤ s.consecutiveFailures)

/-- A sequence of unguarded rotate() calls. -/
def applyRotates (cfg : VPNConfig) (envs : List RotateEnv) (s : VPNState) : VPNState :=
  envs.foldl (fun st env => (rotate cfg env st).1) s

/-- A sequence of rotate() calls under the discipline the pipeline uses at
every call site (download_papers.py lines 218, 227, 244, 642, 653): rotate
is invoked only when has_failed_permanently() is false. -/
def guardedRotates (cfg : VPNConfig) (envs : List RotateEnv) (s : VPNState) : VPNState :=
  envs.foldl (fun st env => if hasFailedPermanently cfg st then st else (rotate cfg env st).1) s

/-! ## Download Executor (src/download.py)

Bytes are modelled as lists of naturals; the HTTP layer is an oracle from
attempt index to response. The file system is modelled as the content
stored at the destination path (an Option of bytes), threaded explicitly:
download_pdf returns the boolean result together with the final content at
the destination path given its content before the call. -/

/-- One HTTP response in download_pdf: either a completed response with a
status code and body, or a transport error (requests.RequestException that
is not an HTTPError). raise_for_status raises HTTPError exactly for status
codes in [400, 600). -/
inductive HttpResult
  | ok (status : Nat) (body : List Nat)
  | netError
deriving Repr

/-- is_pdf (download.py lines 29-31): the first five bytes equal b"%PDF-",
that is 0x25 0x50 0x44 0x46 0x2D. -/
def is_pdf (content : List Nat) : Bool :=
  content.take 5 == [0x25, 0x50, 0x44, 0x46, 0x2D]

/-- Retry loop of download_pdf (download.py lines 59-96). The first
argument of the recursion is the current attempt index, the second the
number of loop iterations remaining (maxRetries - attempt); both retry
branches re-enter the loop only while attempt < maxRetries - 1, matching
the Python range(max_retries) loop with its two except branches. The file
content is written only on the branch that returns true, after the
signature check has passed. -/
def downloadLoop (resp : Nat → HttpResult) (maxRetries : Nat) (file0 : Option (List Nat)) :
    Nat → Nat → Bool × Option (List Nat)
  | _, 0 => (false, file0)
  | attempt, left + 1 =>
    match resp attempt with
    | .ok status body =>
      if 400 ≤ status ∧ status < 600 then
        if attempt < maxRetries - 1 then
          downloadLoop resp maxRetries file0 (attempt + 1) left
        else (false, file0)
      else if is_pdf body then (true, some body)
      else (false, file0)
    | .netError =>
      if attempt < maxRetries - 1 then
        downloadLoop resp maxRetries file0 (attempt + 1) left
      else (false, file0)

/-- download_pdf (download.py lines 34-96), as a function of the response
oracle, the retry budget and the prior content of the destination path.
The mkdir call and the session and header construction before the loop do
not touch the destination path. -/
def download_pdf (resp : Nat → HttpResult) (maxRetries : Nat)
    (file0 : Option (List Nat)) : Bool × Option (List Nat) :=
  downloadLoop resp maxRetries file0 0 maxRetries

/-- The failure modes of one attempt that download_pdf retries or reports
as False: a completed response whose status raise_for_status rejects
(400 to 599), or a transport error. -/
def HttpFailure : HttpResult → Prop
  | .ok status _ => 400 ≤ status ∧ status < 600
  | .netError => True

/-! ## URL Transform Resolver (src/download.py, get_transform_urls) -/

/-- Leftmost match of the pattern [Pp][Mm][Cc] digit+ in a character list:
returns the maximal digit run of the first position where the pattern
matches, models re.search of (PMC with digits) with IGNORECASE followed by
group(1).upper() in download.py lines 120-122. -/
def findPMC : List Char → Option String
  | [] => none
  | p :: tl =>
    match tl with
    | m :: c :: rest =>
      if (p == 'P' || p == 'p') && (m == 'M' || m == 'm') && (c == 'C' || c == 'c') then
        let digits := rest.takeWhile Char.isDigit
        if digits.isEmpty then findPMC tl else some ("PMC" ++ String.mk digits)
      else findPMC tl
    | _ => none

/-- Leftmost match of /document/ followed by digit+ in a character list:
returns the maximal digit run, models re.search in download.py line 153. -/
def findIEEEDoc : List Char → Option String
  | [] => none
  | c :: tl =>
    let l := c :: tl
    if "/document/".toList.isPrefixOf l then
      let digits := (l.drop 10).takeWhile Char.isDigit
      if digits.isEmpty then findIEEEDoc tl else some (String.mk digits)
    else findIEEEDoc tl

/-- All rules of get_transform_urls except the doi.org redirect rule
(download.py lines 111-167), producing alternatives in source order:
PMC, bioRxiv and medRxiv, MDPI, Springer, IEEE, ACM, OUP. -/
def baseTransforms (url : String) : List String :=
  let domain := urlHostname url
  let path := urlPath url
  let pmcAlts :=
    if strContains domain "ncbi.nlm.nih.gov" || strContains domain "pmc" then
      match findPMC path.toList with
      | some pmcId =>
        [ "https://europepmc.org/articles/" ++ pmcId ++ "?format=pdf",
          "https://www.ncbi.nlm.nih.gov/pmc/articles/" ++ pmcId ++ "/pdf/main.pdf",
          "https://www.ncbi.nlm.nih.gov/pmc/articles/" ++ pmcId ++ "/pdf/",
          "https://europepmc.org/backend/ptpmcrender.fcgi?accid=" ++ pmcId ++ "&blobtype=pdf" ]
      | none => []
    else []
  let bioAlts :=
    if (strContains domain "biorxiv.org" || strContains domain "medrxiv.org")
        && !strEndsWith path ".pdf" then
      ["https://" ++ domain ++ rstripSlash path ++ ".full.pdf"]
    else []
  let mdpiAlts :=
    if strContains domain "mdpi.com" && !strContains path "/pdf" then
      ["https://" ++ domain ++ rstripSlash path ++ "/pdf"]
    else []
  let springerAlts :=
    if strContains domain "link.springer.com" && strContains path "/article/" then
      ["https://" ++ domain ++
        String.mk (replaceAllL "/article/".toList "/content/pdf/".toList path.toList) ++ ".pdf"]
    else []
  let ieeeAlts :=
    if strContains domain "ieeexplore.ieee.org" then
      match findIEEEDoc path.toList with
      | some arnumber =>
        ["https://ieeexplore.ieee.org/stampPDF/getPDF.jsp?arnumber=" ++ arnumber]
      | none => []
    else []
  let acmAlts :=
    if strContains domain "dl.acm.org" && strContains path "/doi/"
        && !strContains path "/doi/pdf/" then
      ["https://" ++ domain ++
        String.mk (replaceFirstL "/doi/".toList "/doi/pdf/".toList path.toList)]
    else []
  let oupAlts :=
    if strContains domain "academic.oup.com" && !strContains path "pdfformat" then
      [url ++ "?pdfformat=full"]
    else []
  pmcAlts ++ bioAlts ++ mdpiAlts ++ springerAlts ++ ieeeAlts ++ acmAlts ++ oupAlts

/-- get_transform_urls (download.py lines 99-181). The doi.org rule
(lines 169-179) resolves the URL through a redirect-following probe,
modelled by the resolve oracle (none models a RequestException), and when
the resolved URL differs it appends that URL and the recursive transform
list for it. The Python source recurses with no depth bound; the embedding
is indexed by a fuel count consumed once per call, with none meaning the
computation did not finish within that recursion budget, so the source
diverges on an input exactly when the embedding yields none at every
fuel. -/
def get_transform_urls (resolve : String → Option String) :
    Nat → String → Option (List String)
  | 0, _ => none
  | fuel + 1, url =>
    let base := baseTransforms url
    if strContains (urlHostname url) "doi.org" then
      match resolve url with
      | some finalUrl =>
        if finalUrl ≠ url then
          match get_transform_urls resolve fuel finalUrl with
          | some recAlts => some (base ++ [finalUrl] ++ recAlts)
          | none => none
        else some base
      | none => some base
    else some base

/-- A redirect-resolution oracle under which each of two distinct doi.org
URLs resolves to the other: a pathological redirect two-cycle. -/
def cycleResolve (u : String) : Option String :=
  if u = "https://doi.org/10.1000/cycA" then some "https://doi.org/10.1000/cycB"
  else if u = "https://doi.org/10.1000/cycB" then some "https://doi.org/10.1000/cycA"
  else none

/-! ## CORE adapter (src/core_api.py)

The HTTP layer is an oracle from request index (a running counter across
both queries) to a response. Sleeps are recorded in a trace so the backoff
schedule can be stated; the courtesy sleep of the finally block and the
backoff sleep of the 429 branch are distinguished. Delays are rationals. -/

/-- One item of the results array of a 200 response from the CORE search
endpoint, with the fields read by _extract_pdf_url: downloadUrl (empty
string for absent), links as (type, url) pairs, sourceFulltextUrls. -/
structure CoreResult where
  downloadUrl : String
  links : List (String × String)
  sourceFulltextUrls : List String
deriving Repr

/-- Models _extract_pdf_url (core_api.py lines 37-63): downloadUrl first, then the
first link of type download with a nonempty url, then the first
sourceFulltextUrl mentioning pdf (lowercased), then the first link whose
url mentions .pdf or /pdf/ (lowercased). -/
def extract_pdf_url (r : CoreResult) : Option String :=
  if r.downloadUrl ≠ "" then some r.downloadUrl
  else
    match r.links.find? (fun l => l.1 == "download" && l.2 != "") with
    | some l => some l.2
    | none =>
      match r.sourceFulltextUrls.find?
          (fun u => u != "" && (strContains u.toLower ".pdf" || strContains u.toLower "pdf")) with
      | some u => some u
      | none =>
        match r.links.find?
            (fun l => l.2 != "" && (strContains l.2.toLower ".pdf" || strContains l.2.toLower "/pdf/")) with
        | some l => some l.2
        | none => none

/-- First extractable PDF URL over a results list (the for loop of
core_api.py lines 130-134). -/
def firstExtract (results : List CoreResult) : Option String :=
  match results with
  | [] => none
  | r :: rest =>
    match extract_pdf_url r with
    | some u => some u
    | none => firstExtract rest

/-- One response of the CORE search endpoint: a 200 with a results array, a
429, another status, or a transport error. -/
inductive CoreResp
  | ok (results : List CoreResult)
  | rateLimited
  | otherStatus
  | netError
deriving Repr

/-- A recorded sleep of the CORE adapter: the exponential backoff sleep of
the 429 branch, or the courtesy sleep of the finally block. -/
inductive SleepEv
  | backoff (amount : ℚ)
  | courtesy (amount : ℚ)
deriving Repr, DecidableEq

/-- Outcome of the attempt loop for one query of core_api.py find_pdf_url:
a PDF URL found (return url, False), retries exhausted on 429 (return
None, True), or fall through to the next query (break). -/
inductive QueryOut
  | found (url : String)
  | rateLimitedOut
  | giveUp
deriving Repr, DecidableEq

/-- Split a character list into maximal whitespace-free words, models
Python str.split() with no argument (runs of whitespace separate words and
produce no empty words). -/
def splitWhitespace : List Char → List Char → List (List Char)
  | [], acc => if acc.isEmpty then [] else [acc.reverse]
  | c :: tl, acc =>
    if c.isWhitespace then
      if acc.isEmpty then splitWhitespace tl []
      else acc.reverse :: splitWhitespace tl []
    else splitWhitespace tl (c :: acc)

/-- Models _build_doi_query (core_api.py lines 15-17). -/
def build_doi_query (doi : String) : String := "doi:" ++ doi

/-- Models _build_title_query (core_api.py lines 20-34): quote, parenthesis,
bracket, brace, colon, semicolon and comma characters are replaced by
spaces (the character codes listed are those of the regex class), the
title is split on whitespace, words of length at most 2 are dropped, the
first 10 remaining words are joined. -/
def build_title_query (title : String) : String :=
  let cleaned := title.toList.map (fun c =>
    if [34, 39, 40, 41, 91, 93, 123, 125, 58, 59, 44].contains c.toNat then ' ' else c)
  let words := (splitWhitespace cleaned [])
  let words := (words.filter (fun w => 2 < w.length)).take 10
  if words.isEmpty then ""
  else "title:(" ++ String.mk (List.intercalate [' '] words) ++ ")"

/-- The attempt loop for one query (core_api.py lines 104-142), indexed by
the number of loop iterations remaining (max_retries + 1 at entry). The
attempt index is reconstructed as maxRetries - remainingMinusOne. On a 429
with attempt < max_retries the loop sleeps the backoff then continues (the
finally courtesy sleep runs as control leaves the try); every other branch
leaves the loop after its courtesy sleep. Returns the outcome, the sleep
trace, and the next request index. -/
def coreQueryLoop (resp : Nat → CoreResp) (delay backoffFactor : ℚ) (maxRetries : Nat) :
    Nat → Nat → QueryOut × List SleepEv × Nat
  | 0, rid => (.giveUp, [], rid)
  | aLeft + 1, rid =>
    let attempt := maxRetries - aLeft
    match resp rid with
    | .rateLimited =>
      if attempt < maxRetries then
        let r := coreQueryLoop resp delay backoffFactor maxRetries aLeft (rid + 1)
        (r.1, .backoff (5 * backoffFactor ^ attempt) :: .courtesy delay :: r.2.1, r.2.2)
      else (.rateLimitedOut, [.courtesy delay], rid + 1)
    | .ok results =>
      match firstExtract results with
      | some u => (.found u, [.courtesy delay], rid + 1)
      | none => (.giveUp, [.courtesy delay], rid + 1)
    | .otherStatus => (.giveUp, [.courtesy delay], rid + 1)
    | .netError => (.giveUp, [.courtesy delay], rid + 1)

/-- The outer loop over queries (core_api.py line 103): a found result or
exhausted 429 retries return from the whole function; a break moves to the
next query. -/
def coreQueries (resp : Nat → CoreResp) (delay backoffFactor : ℚ) (maxRetries : Nat) :
    List String → Nat → (Option String × Bool) × List SleepEv
  | [], _ => ((none, false), [])
  | _q :: qs, rid =>
    match coreQueryLoop resp delay backoffFactor maxRetries (maxRetries + 1) rid with
    | (.found u, trace, _) => ((some u, false), trace)
    | (.rateLimitedOut, trace, _) => ((none, true), trace)
    | (.giveUp, trace, rid2) =>
      let r := coreQueries resp delay backoffFactor maxRetries qs rid2
      (r.1, trace ++ r.2)

/-- find_pdf_url of the CORE adapter (core_api.py lines 66-144), returning
the (Option url, was_rate_limited) pair together with the sleep trace.
Absent doi and title are the empty string, matching Python falsiness. -/
def core_find_pdf_url (resp : Nat → CoreResp) (doi title : String)
    (delay backoffFactor : ℚ) (maxRetries : Nat) : (Option String × Bool) × List SleepEv :=
  if doi = "" ∧ title = "" then ((none, false), [])
  else
    let queries :=
      (if doi ≠ "" then [build_doi_query doi] else []) ++
      (if title ≠ "" ∧ build_title_query title ≠ "" then [build_title_query title] else [])
    coreQueries resp delay backoffFactor maxRetries queries 0

/-- Backoff amounts of a sleep trace, in order. -/
def backoffAmounts (trace : List SleepEv) : List ℚ :=
  trace.filterMap (fun e => match e with | .backoff q => some q | .courtesy _ => none)

/-! ## Manifest Store and phase candidate filters

The manifest is a JSON object keyed by paper_id; it is modelled as an
association list preserving dict insertion order, with the well-formedness
assumption that keys are distinct (Python dict keys are unique). Absent
optional string fields are the empty string, matching Python falsiness in
every guard of the source. The helper module src/manifest.py is imported
by scripts/download_papers.py but is not among the provided sources; its
operations are modelled from the specification (sections 3 and 4.1), each
marked in its doc comment. -/

inductive Status
  | pending
  | downloaded
  | notFound
  | failed
deriving DecidableEq, Repr

structure ManifestEntry where
  status : Status
  doi : String
  source : String
  url : String
  filePath : String
  title : String
  authors : String
  year : String
deriving DecidableEq, Repr

structure Paper where
  paperId : String
  title : String
  authors : String
  year : String
  doi : String
  openAccessUrl : String
deriving DecidableEq, Repr

abbrev Manifest := List (String × ManifestEntry)

/-- Distinctness of manifest keys: the dict invariant. -/
def KeysNodup (m : Manifest) : Prop := (m.map Prod.fst).Nodup

def statusOf (m : Manifest) (pid : String) : Option Status :=
  (m.lookup pid).map (fun e => e.status)

def doiOf (m : Manifest) (pid : String) : Option String :=
  (m.lookup pid).map (fun e => e.doi)

/-- Modelled from the spec: update(manifest, paper_id, status, source,
url?, file_path?) of the Manifest Store (spec section 4.1) sets the status
and source fields and the optional url and file_path fields when given;
doi is never touched here. The operation src/manifest.py update_entry is
not among the provided sources. -/
def update_entry (m : Manifest) (pid : String) (status : Status) (source : String)
    (url filePath : Option String) : Manifest :=
  m.map (fun pe =>
    if pe.1 = pid then
      (pe.1, { pe.2 with
                status := status
                source := source
                url := url.getD pe.2.url
                filePath := filePath.getD pe.2.filePath })
    else pe)

/-- The update_entry call shape of every successful download in
scripts/download_papers.py (for example lines 585-595): status downloaded
with a url and a file_path. -/
def markDownloaded (m : Manifest) (pid source url filePath : String) : Manifest :=
  update_entry m pid .downloaded source (some url) (some filePath)

/-- The update_entry call shape of a failed attempt (download_papers.py
lines 598, 664, 694): status failed, optionally with the attempted url,
never with a file_path. -/
def markFailed (m : Manifest) (pid source : String) (url : Option String) : Manifest :=
  update_entry m pid .failed source url none

/-- The update_entry call shape of a no-candidate outcome
(download_papers.py line 671): status not_found, no url, no file_path. -/
def markNotFound (m : Manifest) (pid source : String) : Manifest :=
  update_entry m pid .notFound source none none

/-- One DOI write of enrich_dois (download_papers.py lines 76-77 and
91-92): the doi field is assigned only when the entry exists and its doi
field is currently falsy. -/
def enrichDoiStep (m : Manifest) (pid doi : String) : Manifest :=
  match m.lookup pid with
  | none => m
  | some e =>
    if e.doi = "" then
      m.map (fun pe => if pe.1 = pid then (pe.1, { pe.2 with doi := doi }) else pe)
    else m

/-- enrich_dois (download_papers.py lines 60-97) as its net effect on the
manifest: the per-paper DOI writes of both the metadata pass and the S2
batch pass, folded in order. -/
def enrich_dois (m : Manifest) (dois : List (String × String)) : Manifest :=
  dois.foldl (fun acc pd => enrichDoiStep acc pd.1 pd.2) m

/-- The retry reset loops (download_papers.py lines 543-557): every entry
with the given status is reset to pending; no other entry is touched. -/
def resetByStatus (m : Manifest) (s : Status) : Manifest :=
  m.map (fun pe => if pe.2.status = s then (pe.1, { pe.2 with status := .pending }) else pe)

/-- Modelled from the spec: init(papers, existing_manifest) of the
Manifest Store (spec section 4.1) creates a pending entry seeded from the
Paper snapshot for every paper not already present and leaves existing
entries untouched. The operation src/manifest.py init_manifest is not
among the provided sources. -/
def init_manifest (papers : List Paper) (m : Manifest) : Manifest :=
  papers.foldl (fun acc p =>
    if (acc.lookup p.paperId).isSome then acc
    else acc ++ [(p.paperId,
      { status := .pending, doi := p.doi, source := "", url := "", filePath := "",
        title := p.title, authors := p.authors, year := p.year })]) m

/-- Modelled from the spec: the filter operation of the Manifest Store
restricted to the shape used by the Unpaywall, Crossref and Sci-Hub phases
(spec section 4.1, filter by status set and doi present). The operation
src/manifest.py get_papers_with_doi is not among the provided sources. -/
def get_papers_with_doi (m : Manifest) (statuses : List Status) : List (String × String) :=
  m.filterMap (fun pe =>
    if pe.2.status ∈ statuses ∧ pe.2.doi ≠ "" then some (pe.1, pe.2.doi) else none)

/-- Modelled from the spec: the filter operation of the Manifest Store
restricted to pending entries, used by the Scholar phase (spec sections
4.1 and 4.2, phase 4 runs only for still-pending papers). The operation
src/manifest.py get_pending is not among the provided sources. -/
def get_pending (m : Manifest) : List String :=
  m.filterMap (fun pe => if pe.2.status = .pending then some pe.1 else none)

/-- papers_with_open_access (download_papers.py lines 49-57). -/
def papers_with_open_access (papers : List Paper) : List (String × String) :=
  papers.filterMap (fun p =>
    if p.openAccessUrl ≠ "" then some (p.paperId, p.openAccessUrl) else none)

/-- The phase 1 candidate set (download_papers.py lines 574-576): open
access URLs of papers whose manifest status is pending; a paper missing
from the manifest compares as not pending. -/
def pendingOpenAccess (papers : List Paper) (m : Manifest) : List (String × String) :=
  (papers_with_open_access papers).filter (fun pu => statusOf m pu.1 = some .pending)

/-- The phase 3 and phase 6 candidate set (download_papers.py lines
153-158): failed entries with a url for which the transform table yields
alternatives; the network-dependent transform result is a parameter. -/
def urlTransformCandidates (transforms : String → List String) (m : Manifest) :
    List (String × String × List String) :=
  m.filterMap (fun pe =>
    if pe.2.status = .failed ∧ pe.2.url ≠ "" ∧ transforms pe.2.url ≠ [] then
      some (pe.1, pe.2.url, transforms pe.2.url)
    else none)

/-- The phase 5 candidate set (download_papers.py line 206): failed and
not_found entries. -/
def repoApiCandidates (m : Manifest) : Manifest :=
  m.filter (fun pe => pe.2.status = .failed ∨ pe.2.status = .notFound)

/-! ## Institutional proxy (src/proxy.py) -/

/-- DEFAULT_PUBLISHER_DOMAINS (proxy.py lines 10-32). -/
def DEFAULT_PUBLISHER_DOMAINS : List String :=
  [ "ieeexplore.ieee.org", "link.springer.com", "sciencedirect.com", "elsevier.com",
    "wiley.com", "onlinelibrary.wiley.com", "academic.oup.com", "dl.acm.org",
    "tandfonline.com", "sagepub.com", "nature.com", "science.org", "jstor.org",
    "cambridge.org", "karger.com", "worldscientific.com", "degruyter.com",
    "emerald.com", "liebertpub.com", "ingentaconnect.com", "doi.org" ]

/-- rewrite_url (proxy.py lines 35-62): none when url or proxy_base is
empty; otherwise the proxied url proxy_base ++ url when the hostname of
url contains one of the publisher domains as a substring, none
otherwise. -/
def rewrite_url (url proxyBase : String) (publisherDomains : List String) : Option String :=
  if url = "" ∨ proxyBase = "" then none
  else if publisherDomains.any (fun dd => strContains (urlHostname url) dd) then
    some (proxyBase ++ url)
  else none

/-- The url used by get_proxy_candidates for an entry (proxy.py lines
82-89): the recorded url when truthy, else a doi.org url synthesized from
a truthy doi, else nothing. -/
def effectiveUrl (e : ManifestEntry) : Option String :=
  if e.url ≠ "" then some e.url
  else if e.doi ≠ "" then some ("https://doi.org/" ++ e.doi)
  else none

/-- The loop body of get_proxy_candidates for one manifest item (proxy.py
lines 79-93): skip entries that are neither failed nor not_found, skip
entries with neither url nor doi, and keep the proxied rewrite when the
domain matches. -/
def proxyCandFn (proxyBase : String) (publisherDomains : List String)
    (pe : String × ManifestEntry) : Option (String × String) :=
  if pe.2.status = .failed ∨ pe.2.status = .notFound then
    match effectiveUrl pe.2 with
    | some url => (rewrite_url url proxyBase publisherDomains).map (fun p => (pe.1, p))
    | none => none
  else none

/-- get_proxy_candidates (proxy.py lines 65-95). -/
def get_proxy_candidates (m : Manifest) (proxyBase : String)
    (publisherDomains : List String) : List (String × String) :=
  m.filterMap (proxyCandFn proxyBase publisherDomains)

/-! ## The pipeline mutation language

Every mutation the pipeline applies to the manifest, in the shapes found
at the call sites of scripts/download_papers.py. -/

inductive PipelineOp
  | markDownloaded (pid source url filePath : String)
  | markFailed (pid source : String) (url : Option String)
  | markNotFound (pid source : String)
  | enrichDoi (pid doi : String)
  | resetFailed
  | resetNotFound
  | initPapers (papers : List Paper)

def applyOp (m : Manifest) : PipelineOp → Manifest
  | .markDownloaded pid source url filePath => markDownloaded m pid source url filePath
  | .markFailed pid source url => markFailed m pid source url
  | .markNotFound pid source => markNotFound m pid source
  | .enrichDoi pid doi => enrichDoiStep m pid doi
  | .resetFailed => resetByStatus m .failed
  | .resetNotFound => resetByStatus m .notFound
  | .initPapers papers => init_manifest papers m

def applyOps (m : Manifest) (ops : List PipelineOp) : Manifest :=
  ops.foldl applyOp m

/-- The conditions under which the pipeline issues each operation: every
markDownloaded call passes the nonempty relative path of the written file
(download_papers.py line 594 and its analogues), and every markFailed and
markNotFound call targets a paper drawn from a candidate set that excludes
downloaded entries. -/
def OpOk (m : Manifest) : PipelineOp → Prop
  | .markDownloaded _ _ _ filePath => filePath ≠ ""
  | .markFailed pid _ _ => statusOf m pid ≠ some .downloaded
  | .markNotFound pid _ => statusOf m pid ≠ some .downloaded
  | _ => True

/-- Status exclusivity invariant of the spec (section 3): file_path is
nonempty exactly on downloaded entries. -/
def FilePathInv (m : Manifest) : Prop :=
  ∀ pe ∈ m, pe.2.filePath ≠ "" ↔ pe.2.status = Status.downloaded

/-! ## Concrete fixtures for witnesses -/

/-- A configuration with the default cadence and failure budget of vpn.py
__init__ (rotate_every_n_papers 20, max_rotation_failures 3). -/
def cfgDefault : VPNConfig :=
  { strategy := .smart, preferredLocations := ["usa - new york", "uk - london"],
    connectionTimeout := 30, postConnectDelay := 5, minRotationInterval := 60,
    verifyIp := true, maxFailures := 3, rotateEveryN := 20 }

/-- The default configuration with max_rotation_failures set to 1. -/
def cfgOneFailure : VPNConfig :=
  { cfgDefault with maxFailures := 1 }

/-- A rotate environment whose connect step fails. -/
def envFail : RotateEnv := { rand := 0, connectOk := false, endTime := 0 }

/-- A rotate environment whose connect step succeeds. -/
def envOk : RotateEnv := { rand := 0, connectOk := true, endTime := 100 }

/-- A concrete manifest entry used by witnesses. -/
def entryWith (st : Status) (doi url filePath : String) : ManifestEntry :=
  { status := st, doi := doi, source := "", url := url, filePath := filePath,
    title := "t", authors := "a", year := "2001" }

/-! ## Theorems -/

theorem pickNextLocation_consecutiveFailures (cfg : VPNConfig) (s : VPNState) (r : Nat) :
    (pickNextLocation cfg s r).2.consecutiveFailures = s.consecutiveFailures := by
  cases hs : cfg.strategy <;> simp [pickNextLocation, hs]

theorem rotate_fail_count (cfg : VPNConfig) (env : RotateEnv) (s : VPNState)
    (h : env.connectOk = false) :
    (rotate cfg env s).1.consecutiveFailures = s.consecutiveFailures + 1 := by
  unfold rotate
  rw [h]
  simp [pickNextLocation_consecutiveFailures]

theorem applyRotates_fail_count (cfg : VPNConfig) :
    ∀ (fails : List RotateEnv) (s : VPNState),
      (∀ e ∈ fails, e.connectOk = false) →
      (applyRotates cfg fails s).consecutiveFailures = s.consecutiveFailures + fails.length := by
  intro fails
  induction fails with
  | nil => intro s _; simp [applyRotates]
  | cons e tl ih =>
    intro s hf
    have he : e.connectOk = false := hf e (List.mem_cons_self e tl)
    have htl : ∀ x ∈ tl, x.connectOk = false := fun x hx => hf x (List.mem_cons_of_mem e hx)
    have step : applyRotates cfg (e :: tl) s = applyRotates cfg tl (rotate cfg e s).1 := rfl
    rw [step, ih _ htl, rotate_fail_count cfg e s he]
    simp [List.length_cons]
    omega

theorem guardedRotates_latched (cfg : VPNConfig) :
    ∀ (envs : List RotateEnv) (s : VPNState),
      hasFailedPermanently cfg s = true → guardedRotates cfg envs s = s := by
  intro envs
  induction envs with
  | nil => intro s _; rfl
  | cons e tl ih =>
    intro s h
    have step : guardedRotates cfg (e :: tl) s =
        guardedRotates cfg tl (if hasFailedPermanently cfg s then s else (rotate cfg e s).1) := rfl
    rw [step, if_pos h]
    exact ih s h

/-- C2 counterexample: with max_rotation_failures = 1, one failed rotate()
latches has_failed_permanently(), but a subsequent successful rotate()
call resets the consecutive-failure counter (vpn.py line 197) and the
latch reads false again — on the scheduler alone the latch is not
permanent. -/
theorem rotate_success_clears_latch :
    hasFailedPermanently cfgOneFailure (rotate cfgOneFailure envFail VPNState.init).1 = true ∧
    hasFailedPermanently cfgOneFailure
      (rotate cfgOneFailure envOk (rotate cfgOneFailure envFail VPNState.init).1).1 = false := by
  constructor <;> rfl

/-- C2 (amended): after max_rotation_failures consecutive failed rotate()
calls, has_failed_permanently() returns true, and it remains true for the
rest of the run under the pipeline call discipline, which invokes rotate()
only when has_failed_permanently() is false (all call sites in
download_papers.py are so guarded) — including when a blocked rotate()
call would have succeeded. A direct unguarded successful rotate() call
would clear the latch, but the pipeline never issues one. -/
theorem latch_holds_under_pipeline_guard (cfg : VPNConfig) (s : VPNState)
    (fails envs : List RotateEnv)
    (hf : ∀ e ∈ fails, e.connectOk = false)
    (hlen : fails.length = cfg.maxFailures)
    (hs : s.consecutiveFailures = 0) :
    hasFailedPermanently cfg (applyRotates cfg fails s) = true ∧
    hasFailedPermanently cfg (guardedRotates cfg envs (applyRotates cfg fails s)) = true := by
  have h1 : hasFailedPermanently cfg (applyRotates cfg fails s) = true := by
    unfold hasFailedPermanently
    rw [applyRotates_fail_count cfg fails s hf, hs, hlen]
    simp
  refine ⟨h1, ?_⟩
  rw [guardedRotates_latched cfg envs _ h1]
  exact h1

theorem latch_holds_under_pipeline_guard_witness :
    hasFailedPermanently cfgDefault
      (applyRotates cfgDefault [envFail, envFail, envFail] VPNState.init) = true ∧
    hasFailedPermanently cfgDefault
      (guardedRotates cfgDefault [envOk]
        (applyRotates cfgDefault [envFail, envFail, envFail] VPNState.init)) = true :=
  latch_holds_under_pipeline_guard cfgDefault VPNState.init [envFail, envFail, envFail] [envOk]
    (by decide) (by decide) rfl

/-- C3: for a positive configured cadence, should_rotate_proactively(n)
returns true exactly when n is positive and a multiple of
rotate_every_n. -/
theorem shouldRotateProactively_iff (cfg : VPNConfig) (n : Nat)
    (_hpos : 0 < cfg.rotateEveryN) :
    shouldRotateProactively cfg n = true ↔ 0 < n ∧ n % cfg.rotateEveryN = 0 := by
  unfold shouldRotateProactively
  simp [Bool.and_eq_true, decide_eq_true_eq, beq_iff_eq]

theorem shouldRotateProactively_iff_witness :
    shouldRotateProactively cfgDefault 20 = true ∧
    shouldRotateProactively cfgDefault 19 ≠ true :=
  ⟨(shouldRotateProactively_iff cfgDefault 20 (by decide)).mpr (by decide),
   fun h => by
     have h2 := (shouldRotateProactively_iff cfgDefault 19 (by decide)).mp h
     exact absurd h2.2 (by decide)⟩

/-- C7: the doi.org redirect rule of get_transform_urls has no depth
limit. Under a redirect resolver that sends each of two distinct doi.org
URLs to the other — a pathological redirect loop — the recursion exceeds
every finite budget: the fuel-indexed embedding returns none at every
fuel, so the source function does not terminate on this input. -/
theorem get_transform_urls_cycle_diverges :
    ∀ fuel,
      get_transform_urls cycleResolve fuel "https://doi.org/10.1000/cycA" = none ∧
      get_transform_urls cycleResolve fuel "https://doi.org/10.1000/cycB" = none := by
  intro fuel
  induction fuel with
  | zero => exact ⟨rfl, rfl⟩
  | succ n ih =>
    refine ⟨?_, ?_⟩
    · have hstep : get_transform_urls cycleResolve (n + 1) "https://doi.org/10.1000/cycA" =
          (match get_transform_urls cycleResolve n "https://doi.org/10.1000/cycB" with
           | some recAlts =>
             some (baseTransforms "https://doi.org/10.1000/cycA" ++
               ["https://doi.org/10.1000/cycB"] ++ recAlts)
           | none => none) := rfl
      rw [hstep, ih.2]
    · have hstep : get_transform_urls cycleResolve (n + 1) "https://doi.org/10.1000/cycB" =
          (match get_transform_urls cycleResolve n "https://doi.org/10.1000/cycA" with
           | some recAlts =>
             some (baseTransforms "https://doi.org/10.1000/cycB" ++
               ["https://doi.org/10.1000/cycA"] ++ recAlts)
           | none => none) := rfl
      rw [hstep, ih.1]

theorem downloadLoop_spec (resp : Nat → HttpResult) (maxRetries : Nat)
    (f0 : Option (List Nat)) :
    ∀ (left attempt : Nat),
      ((downloadLoop resp maxRetries f0 attempt left).1 = true →
        ∃ b, (downloadLoop resp maxRetries f0 attempt left).2 = some b ∧ is_pdf b = true) ∧
      ((downloadLoop resp maxRetries f0 attempt left).1 = false →
        (downloadLoop resp maxRetries f0 attempt left).2 = f0) := by
  intro left
  induction left with
  | zero => intro attempt; exact ⟨fun h => absurd h (by simp [downloadLoop]), fun _ => rfl⟩
  | succ n ih =>
    intro attempt
    cases hr : resp attempt with
    | ok status body =>
      simp only [downloadLoop, hr]
      by_cases herr : 400 ≤ status ∧ status < 600
      · rw [if_pos herr]
        by_cases hretry : attempt < maxRetries - 1
        · rw [if_pos hretry]; exact ih (attempt + 1)
        · rw [if_neg hretry]; exact ⟨fun h => by simp at h, fun _ => rfl⟩
      · rw [if_neg herr]
        by_cases hpdf : is_pdf body = true
        · rw [if_pos hpdf]; exact ⟨fun _ => ⟨body, rfl, hpdf⟩, fun h => by simp at h⟩
        · rw [if_neg hpdf]; exact ⟨fun h => by simp at h, fun _ => rfl⟩
    | netError =>
      simp only [downloadLoop, hr]
      by_cases hretry : attempt < maxRetries - 1
      · rw [if_pos hretry]; exact ih (attempt + 1)
      · rw [if_neg hretry]; exact ⟨fun h => by simp at h, fun _ => rfl⟩

theorem downloadLoop_allFail (resp : Nat → HttpResult) (maxRetries : Nat)
    (f0 : Option (List Nat)) (hfail : ∀ i, HttpFailure (resp i)) :
    ∀ (left attempt : Nat), downloadLoop resp maxRetries f0 attempt left = (false, f0) := by
  intro left
  induction left with
  | zero => intro attempt; rfl
  | succ n ih =>
    intro attempt
    cases hr : resp attempt with
    | ok status body =>
      have herr : 400 ≤ status ∧ status < 600 := by
        have hx := hfail attempt
        rw [hr] at hx
        exact hx
      simp only [downloadLoop, hr]
      rw [if_pos herr]
      by_cases hretry : attempt < maxRetries - 1
      · rw [if_pos hretry]; exact ih (attempt + 1)
      · rw [if_neg hretry]
    | netError =>
      simp only [downloadLoop, hr]
      by_cases hretry : attempt < maxRetries - 1
      · rw [if_pos hretry]; exact ih (attempt + 1)
      · rw [if_neg hretry]

/-- C8: download_pdf reports its outcome as a boolean over every response
oracle; the destination path changes only when the body has passed the PDF
signature check (the written content is a valid PDF and the call returns
true); when every attempt fails with a rejected status or a transport
error the call returns false with the destination unchanged; and a first
response whose body fails the signature check returns false with no
write. -/
theorem download_pdf_outcomes (resp : Nat → HttpResult) (maxRetries : Nat)
    (f0 : Option (List Nat)) :
    ((download_pdf resp maxRetries f0).2 ≠ f0 →
      (download_pdf resp maxRetries f0).1 = true ∧
      ∃ b, (download_pdf resp maxRetries f0).2 = some b ∧ is_pdf b = true) ∧
    ((download_pdf resp maxRetries f0).1 = true →
      ∃ b, (download_pdf resp maxRetries f0).2 = some b ∧ is_pdf b = true) ∧
    ((∀ i, HttpFailure (resp i)) → download_pdf resp maxRetries f0 = (false, f0)) ∧
    (∀ status body, resp 0 = .ok status body → ¬(400 ≤ status ∧ status < 600) →
      is_pdf body = false → download_pdf resp maxRetries f0 = (false, f0)) := by
  have hspec := downloadLoop_spec resp maxRetries f0 maxRetries 0
  refine ⟨?_, hspec.1, ?_, ?_⟩
  · intro hne
    cases hb : (download_pdf resp maxRetries f0).1 with
    | true => exact ⟨rfl, hspec.1 hb⟩
    | false => exact absurd (hspec.2 hb) hne
  · intro hfail
    have := downloadLoop_allFail resp maxRetries f0 hfail maxRetries 0
    exact this
  · intro status body hr herr hpdf
    unfold download_pdf
    cases maxRetries with
    | zero => rfl
    | succ k =>
      simp only [downloadLoop, hr]
      rw [if_neg herr, if_neg (by simp [hpdf])]

theorem download_pdf_outcomes_witness :
    download_pdf (fun _ => HttpResult.netError) 3 (some [9, 9, 9]) = (false, some [9, 9, 9]) :=
  (download_pdf_outcomes (fun _ => HttpResult.netError) 3 (some [9, 9, 9])).2.2.1
    (fun _ => trivial)

/-- C9: whenever download_pdf returns false, the content previously stored
at the destination path is unchanged: the single write of download.py line
70 lies on the path that returns true. -/
theorem download_pdf_false_frame (resp : Nat → HttpResult) (maxRetries : Nat)
    (f0 : Option (List Nat)) (h : (download_pdf resp maxRetries f0).1 = false) :
    (download_pdf resp maxRetries f0).2 = f0 :=
  (downloadLoop_spec resp maxRetries f0 maxRetries 0).2 h

theorem download_pdf_false_frame_witness :
    (download_pdf (fun _ => HttpResult.ok 200 [1, 2]) 3 (some [9, 9, 9])).2 = some [9, 9, 9] :=
  download_pdf_false_frame (fun _ => HttpResult.ok 200 [1, 2]) 3 (some [9, 9, 9]) (by decide)

theorem coreQueryLoop_rateLimited (resp : Nat → CoreResp) (delay bf : ℚ) (maxRetries : Nat)
    (hrl : ∀ i, resp i = .rateLimited) :
    ∀ (n rid : Nat), n ≤ maxRetries →
      (coreQueryLoop resp delay bf maxRetries (n + 1) rid).1 = .rateLimitedOut ∧
      backoffAmounts (coreQueryLoop resp delay bf maxRetries (n + 1) rid).2.1 =
        (List.range' (maxRetries - n) n).map (fun a => 5 * bf ^ a) := by
  intro n
  induction n with
  | zero =>
    intro rid _
    simp only [coreQueryLoop, hrl rid]
    rw [if_neg (by omega : ¬ maxRetries - 0 < maxRetries)]
    exact ⟨rfl, rfl⟩
  | succ k ih =>
    intro rid hk
    have ihh := ih (rid + 1) (by omega)
    rw [coreQueryLoop]
    simp only [hrl rid]
    rw [if_pos (by omega : maxRetries - (k + 1) < maxRetries)]
    refine ⟨ihh.1, ?_⟩
    show backoffAmounts
        (SleepEv.backoff (5 * bf ^ (maxRetries - (k + 1))) :: SleepEv.courtesy delay ::
          (coreQueryLoop resp delay bf maxRetries (k + 1) (rid + 1)).2.1) = _
    have ih2 := ihh.2
    simp only [backoffAmounts, List.filterMap_cons] at ih2 ⊢
    have hstart : maxRetries - k = maxRetries - (k + 1) + 1 := by omega
    rw [ih2, List.range'_succ, List.map_cons, hstart]

/-- C4: when every request of the CORE adapter receives a 429, the backoff
waits form the schedule 5 times backoff_factor to the power of the attempt
index (5, 10, 20 with factor 2), and after max_retries retries the call
returns (None, rate_limited = true) rather than retrying further. -/
theorem core_backoff_schedule (resp : Nat → CoreResp) (doi title : String)
    (delay bf : ℚ) (maxRetries : Nat)
    (hrl : ∀ i, resp i = .rateLimited) (hdoi : doi ≠ "") :
    (core_find_pdf_url resp doi title delay bf maxRetries).1 = (none, true) ∧
    backoffAmounts (core_find_pdf_url resp doi title delay bf maxRetries).2 =
      (List.range maxRetries).map (fun i => 5 * bf ^ i) := by
  have hq := coreQueryLoop_rateLimited resp delay bf maxRetries hrl maxRetries 0 le_rfl
  unfold core_find_pdf_url
  rw [if_neg (fun hc => hdoi hc.1)]
  rw [if_pos hdoi]
  rcases ht : coreQueryLoop resp delay bf maxRetries (maxRetries + 1) 0 with ⟨out, tr, rid2⟩
  rw [ht] at hq
  simp only at hq
  obtain ⟨hout, htr⟩ := hq
  subst hout
  simp only [List.singleton_append, coreQueries, ht]
  refine ⟨by trivial, ?_⟩
  rw [htr, List.range_eq_range', Nat.sub_self]

theorem core_backoff_schedule_witness :
    (core_find_pdf_url (fun _ => CoreResp.rateLimited) "10.1000/x" "" 1 2 3).1 = (none, true) ∧
    backoffAmounts (core_find_pdf_url (fun _ => CoreResp.rateLimited) "10.1000/x" "" 1 2 3).2 =
      [5, 10, 20] := by
  have h := core_backoff_schedule (fun _ => CoreResp.rateLimited) "10.1000/x" "" 1 2 3
    (fun _ => rfl) (by decide)
  refine ⟨h.1, ?_⟩
  rw [h.2]
  norm_num [List.range_succ]

theorem lookup_of_mem_nodup :
    ∀ {m : Manifest} {pid : String} {e : ManifestEntry},
      KeysNodup m → (pid, e) ∈ m → m.lookup pid = some e := by
  intro m
  induction m with
  | nil => intro pid e _ hm; cases hm
  | cons pv tl ih =>
    intro pid e hn hm
    obtain ⟨hhead, htail⟩ := List.nodup_cons.mp hn
    rcases List.mem_cons.mp hm with heq | hmem
    · rw [← heq]
      simp [List.lookup]
    · have hne : pid ≠ pv.1 := by
        intro hcontra
        exact hhead (hcontra ▸ List.mem_map_of_mem Prod.fst hmem)
      have : (pid == pv.1) = false := beq_false_of_ne hne
      simp [List.lookup, this]
      exact ih htail hmem

theorem mem_of_lookup :
    ∀ {m : Manifest} {pid : String} {e : ManifestEntry},
      m.lookup pid = some e → (pid, e) ∈ m := by
  intro m
  induction m with
  | nil => intro pid e h; cases h
  | cons pv tl ih =>
    intro pid e h
    by_cases hb : pid = pv.1
    · subst hb
      simp [List.lookup] at h
      subst h
      exact List.mem_cons_self _ _
    · have : (pid == pv.1) = false := beq_false_of_ne hb
      simp [List.lookup, this] at h
      exact List.mem_cons_of_mem _ (ih h)

theorem lookup_map_fst_eq (g : String × ManifestEntry → String × ManifestEntry)
    (hg : ∀ pe, (g pe).1 = pe.1) :
    ∀ (m : Manifest) (q : String),
      (m.map g).lookup q = (m.lookup q).map (fun e => (g (q, e)).2) := by
  intro m
  induction m with
  | nil => intro q; rfl
  | cons pv tl ih =>
    intro q
    rcases pv with ⟨p, v⟩
    simp only [List.map_cons, List.lookup]
    rw [hg (p, v)]
    by_cases hb : q = p
    · subst hb
      simp [List.lookup]
    · have hf : (q == p) = false := beq_false_of_ne hb
      simp only [hf]
      exact ih q

theorem lookup_append_some {l1 : Manifest} (l2 : Manifest) {q : String} {v : ManifestEntry}
    (h : l1.lookup q = some v) : (l1 ++ l2).lookup q = some v := by
  induction l1 with
  | nil => cases h
  | cons pv tl ih =>
    by_cases hb : q = pv.1
    · have ht : (q == pv.1) = true := beq_iff_eq.mpr hb
      simp only [List.cons_append, List.lookup, ht] at h ⊢
      exact h
    · have hf : (q == pv.1) = false := beq_false_of_ne hb
      simp only [List.cons_append, List.lookup, hf] at h ⊢
      exact ih h

theorem lookup_init_manifest_some :
    ∀ (papers : List Paper) {m : Manifest} {q : String} {v : ManifestEntry},
      m.lookup q = some v → (init_manifest papers m).lookup q = some v := by
  intro papers
  induction papers with
  | nil => intro m q v h; exact h
  | cons p tl ih =>
    intro m q v h
    have hstep : init_manifest (p :: tl) m = init_manifest tl
        (if (m.lookup p.paperId).isSome then m
         else m ++ [(p.paperId,
           { status := .pending, doi := p.doi, source := "", url := "", filePath := "",
             title := p.title, authors := p.authors, year := p.year })]) := by
      simp only [init_manifest, List.foldl_cons]
    rw [hstep]
    by_cases hc : (m.lookup p.paperId).isSome
    · rw [if_pos hc]; exact ih h
    · rw [if_neg hc]; exact ih (lookup_append_some _ h)

theorem enrichDoiStep_eq_none {m : Manifest} {pid doi : String}
    (h : m.lookup pid = none) : enrichDoiStep m pid doi = m := by
  unfold enrichDoiStep
  rw [h]

theorem enrichDoiStep_eq_set {m : Manifest} {pid doi : String} {e : ManifestEntry}
    (h : m.lookup pid = some e) (hg : e.doi = "") :
    enrichDoiStep m pid doi =
      m.map (fun pe => if pe.1 = pid then (pe.1, { pe.2 with doi := doi }) else pe) := by
  unfold enrichDoiStep
  rw [h]
  show (if e.doi = "" then _ else m) = _
  rw [if_pos hg]

theorem enrichDoiStep_eq_skip {m : Manifest} {pid doi : String} {e : ManifestEntry}
    (h : m.lookup pid = some e) (hg : e.doi ≠ "") : enrichDoiStep m pid doi = m := by
  unfold enrichDoiStep
  rw [h]
  show (if e.doi = "" then _ else m) = m
  rw [if_neg hg]

theorem doiOf_update_entry (m : Manifest) (pid q : String) (st : Status) (src : String)
    (u fp : Option String) :
    doiOf (update_entry m pid st src u fp) q = doiOf m q := by
  unfold doiOf update_entry
  rw [lookup_map_fst_eq _ (fun pe => by by_cases h : pe.1 = pid <;> simp [h])]
  cases hq : m.lookup q with
  | none => rfl
  | some e => by_cases h : q = pid <;> simp [h]

theorem doiOf_resetByStatus (m : Manifest) (s : Status) (q : String) :
    doiOf (resetByStatus m s) q = doiOf m q := by
  unfold doiOf resetByStatus
  rw [lookup_map_fst_eq _ (fun pe => by by_cases h : pe.2.status = s <;> simp [h])]
  cases hq : m.lookup q with
  | none => rfl
  | some e => by_cases h : e.status = s <;> simp [h]

theorem doiOf_enrichDoiStep (m : Manifest) (pid2 d2 q d : String)
    (hd : d ≠ "") (h : doiOf m q = some d) :
    doiOf (enrichDoiStep m pid2 d2) q = some d := by
  cases hl : m.lookup pid2 with
  | none => rw [enrichDoiStep_eq_none hl]; exact h
  | some e2 =>
    by_cases hg : e2.doi = ""
    · rw [enrichDoiStep_eq_set hl hg]
      unfold doiOf at h ⊢
      rw [lookup_map_fst_eq _ (fun pe => by by_cases hh : pe.1 = pid2 <;> simp [hh])]
      cases hq : m.lookup q with
      | none => rw [hq] at h; cases h
      | some e =>
        rw [hq] at h
        simp only [Option.map_some'] at h
        by_cases hh : q = pid2
        · exfalso
          rw [hh, hl] at hq
          injection hq with hq2
          injection h with h2
          apply hd
          rw [← h2, ← hq2]
          exact hg
        · simp only [Option.map_some']
          rw [if_neg hh]
          exact h
    · rw [enrichDoiStep_eq_skip hl hg]; exact h

theorem doiOf_applyOp (m : Manifest) (op : PipelineOp) (q d : String)
    (hd : d ≠ "") (h : doiOf m q = some d) : doiOf (applyOp m op) q = some d := by
  cases op with
  | markDownloaded pid src url fp =>
    show doiOf (update_entry m pid .downloaded src (some url) (some fp)) q = some d
    rw [doiOf_update_entry]; exact h
  | markFailed pid src url =>
    show doiOf (update_entry m pid .failed src url none) q = some d
    rw [doiOf_update_entry]; exact h
  | markNotFound pid src =>
    show doiOf (update_entry m pid .notFound src none none) q = some d
    rw [doiOf_update_entry]; exact h
  | enrichDoi pid doi2 => exact doiOf_enrichDoiStep m pid doi2 q d hd h
  | resetFailed => show doiOf (resetByStatus m .failed) q = some d; rw [doiOf_resetByStatus]; exact h
  | resetNotFound => show doiOf (resetByStatus m .notFound) q = some d; rw [doiOf_resetByStatus]; exact h
  | initPapers papers =>
    show doiOf (init_manifest papers m) q = some d
    unfold doiOf at h ⊢
    cases hq : m.lookup q with
    | none => rw [hq] at h; cases h
    | some e =>
      rw [lookup_init_manifest_some papers hq]
      rw [hq] at h
      exact h

/-- C6: once the doi field of a manifest entry holds a nonempty value, no
sequence of pipeline operations — including running DOI enrichment again —
clears or replaces it: enrich_dois writes only into entries whose doi is
currently empty, update_entry never touches doi, status resets touch only
status, and manifest init leaves existing entries untouched. -/
theorem doi_never_overwritten (ops : List PipelineOp) (m : Manifest) (pid d : String)
    (hd : d ≠ "") (h : doiOf m pid = some d) :
    doiOf (applyOps m ops) pid = some d := by
  induction ops generalizing m with
  | nil => exact h
  | cons op tl ih => exact ih (applyOp m op) (doiOf_applyOp m op pid d hd h)

theorem doi_never_overwritten_witness :
    doiOf (applyOps [("p1", entryWith .failed "10.1000/x" "" "")]
      [PipelineOp.enrichDoi "p1" "10.9999/z",
       PipelineOp.markDownloaded "p1" "core" "http://u" "pdfs/p1.pdf"]) "p1" =
      some "10.1000/x" :=
  doi_never_overwritten
    [PipelineOp.enrichDoi "p1" "10.9999/z",
     PipelineOp.markDownloaded "p1" "core" "http://u" "pdfs/p1.pdf"]
    [("p1", entryWith .failed "10.1000/x" "" "")] "p1" "10.1000/x"
    (by decide) (by decide)

theorem filePathInv_update_not_downloaded {m : Manifest} {pid src : String}
    {url : Option String} {st : Status} (hn : KeysNodup m) (hInv : FilePathInv m)
    (hst : st ≠ .downloaded) (hok : statusOf m pid ≠ some .downloaded) :
    FilePathInv (update_entry m pid st src url none) := by
  intro pe' hpe'
  unfold update_entry at hpe'
  obtain ⟨pe, hpe, hmap⟩ := List.mem_map.mp hpe'
  rcases pe with ⟨p, e⟩
  by_cases h : p = pid
  · subst h
    rw [if_pos rfl] at hmap
    have hlk : m.lookup p = some e := lookup_of_mem_nodup hn hpe
    have hstat : e.status ≠ .downloaded := by
      intro hcontra
      apply hok
      unfold statusOf
      rw [hlk]
      simp only [Option.map_some']
      rw [hcontra]
    have hfp : e.filePath = "" := by
      by_contra hne
      exact hstat ((hInv (p, e) hpe).mp hne)
    rw [← hmap]
    simp only [Option.getD_none]
    constructor
    · intro hne
      exact absurd hfp hne
    · intro hc
      exact absurd hc hst
  · rw [if_neg h] at hmap
    rw [← hmap]
    exact hInv (p, e) hpe

theorem filePathInv_init (papers : List Paper) :
    ∀ (m : Manifest), FilePathInv m → FilePathInv (init_manifest papers m) := by
  induction papers with
  | nil => intro m h; exact h
  | cons p tl ih =>
    intro m h
    have hstep : init_manifest (p :: tl) m = init_manifest tl
        (if (m.lookup p.paperId).isSome then m
         else m ++ [(p.paperId,
           { status := .pending, doi := p.doi, source := "", url := "", filePath := "",
             title := p.title, authors := p.authors, year := p.year })]) := by
      simp only [init_manifest, List.foldl_cons]
    rw [hstep]
    apply ih
    by_cases hc : (m.lookup p.paperId).isSome
    · rw [if_pos hc]; exact h
    · rw [if_neg hc]
      intro pe hpe
      rcases List.mem_append.mp hpe with hin | hin
      · exact h pe hin
      · rcases List.mem_singleton.mp hin with rfl
        simp

/-- C5: the status exclusivity invariant — file_path nonempty exactly on
downloaded entries — is preserved by every pipeline mutation as the
pipeline issues it: downloads record a nonempty file path, failed and
not-found updates target only non-downloaded candidates and never pass a
file path, DOI writes and status resets leave file_path untouched, and
init creates pending entries with an empty file path. -/
theorem filePath_iff_downloaded_preserved (m : Manifest) (op : PipelineOp)
    (hn : KeysNodup m) (hInv : FilePathInv m) (hok : OpOk m op) :
    FilePathInv (applyOp m op) := by
  cases op with
  | markDownloaded pid src url fp =>
    have hfp : fp ≠ "" := hok
    show FilePathInv (update_entry m pid .downloaded src (some url) (some fp))
    intro pe' hpe'
    unfold update_entry at hpe'
    obtain ⟨pe, hpe, hmap⟩ := List.mem_map.mp hpe'
    rcases pe with ⟨p, e⟩
    by_cases h : p = pid
    · subst h
      rw [if_pos rfl] at hmap
      rw [← hmap]
      simp only [Option.getD_some]
      exact ⟨fun _ => trivial, fun _ => hfp⟩
    · rw [if_neg h] at hmap
      rw [← hmap]
      exact hInv (p, e) hpe
  | markFailed pid src url =>
    exact filePathInv_update_not_downloaded hn hInv (by intro hc; cases hc) hok
  | markNotFound pid src =>
    exact filePathInv_update_not_downloaded hn hInv (by intro hc; cases hc) hok
  | enrichDoi pid doi2 =>
    cases hl : m.lookup pid with
    | none =>
      show FilePathInv (enrichDoiStep m pid doi2)
      rw [enrichDoiStep_eq_none hl]
      exact hInv
    | some e2 =>
      by_cases hg : e2.doi = ""
      · show FilePathInv (enrichDoiStep m pid doi2)
        rw [enrichDoiStep_eq_set hl hg]
        intro pe' hpe'
        obtain ⟨pe, hpe, hmap⟩ := List.mem_map.mp hpe'
        rcases pe with ⟨p, e⟩
        by_cases h : p = pid
        · subst h
          rw [if_pos rfl] at hmap
          rw [← hmap]
          exact hInv (p, e) hpe
        · rw [if_neg h] at hmap
          rw [← hmap]
          exact hInv (p, e) hpe
      · show FilePathInv (enrichDoiStep m pid doi2)
        rw [enrichDoiStep_eq_skip hl hg]
        exact hInv
  | resetFailed =>
    show FilePathInv (resetByStatus m .failed)
    intro pe' hpe'
    obtain ⟨pe, hpe, hmap⟩ := List.mem_map.mp hpe'
    by_cases h : pe.2.status = .failed
    · rw [if_pos h] at hmap
      have hfp : pe.2.filePath = "" := by
        by_contra hne
        have := (hInv pe hpe).mp hne
        rw [h] at this
        cases this
      rw [← hmap]
      simp [hfp]
    · rw [if_neg h] at hmap
      rw [← hmap]
      exact hInv pe hpe
  | resetNotFound =>
    show FilePathInv (resetByStatus m .notFound)
    intro pe' hpe'
    obtain ⟨pe, hpe, hmap⟩ := List.mem_map.mp hpe'
    by_cases h : pe.2.status = .notFound
    · rw [if_pos h] at hmap
      have hfp : pe.2.filePath = "" := by
        by_contra hne
        have := (hInv pe hpe).mp hne
        rw [h] at this
        cases this
      rw [← hmap]
      simp [hfp]
    · rw [if_neg h] at hmap
      rw [← hmap]
      exact hInv pe hpe
  | initPapers papers =>
    exact filePathInv_init papers m hInv

theorem filePath_iff_downloaded_preserved_witness :
    FilePathInv (applyOp [("p1", entryWith .pending "" "" "")]
      (PipelineOp.markFailed "p1" "open_access" (some "http://u"))) :=
  filePath_iff_downloaded_preserved [("p1", entryWith .pending "" "" "")]
    (PipelineOp.markFailed "p1" "open_access" (some "http://u"))
    (by unfold KeysNodup; decide) (by unfold FilePathInv; decide)
    (by unfold OpOk; decide)

theorem effectiveUrl_ne_empty {e : ManifestEntry} {url : String}
    (h : effectiveUrl e = some url) : url ≠ "" := by
  unfold effectiveUrl at h
  by_cases h1 : e.url ≠ ""
  · rw [if_pos h1] at h
    injection h with h2
    rw [← h2]
    exact h1
  · rw [if_neg h1] at h
    by_cases h2 : e.doi ≠ ""
    · rw [if_pos h2] at h
      injection h with h3
      intro hcontra
      rw [← h3] at hcontra
      have hlen := congrArg String.length hcontra
      rw [String.length_append] at hlen
      have h16 : ("https://doi.org/" : String).length = 16 := rfl
      have h0 : ("" : String).length = 0 := rfl
      rw [h16, h0] at hlen
      omega
    · rw [if_neg h2] at h
      cases h

theorem rewrite_url_eq_some_iff {url pb : String} {doms : List String} {p : String}
    (hu : url ≠ "") (hpb : pb ≠ "") :
    rewrite_url url pb doms = some p ↔
      doms.any (fun dd => strContains (urlHostname url) dd) = true ∧ p = pb ++ url := by
  unfold rewrite_url
  rw [if_neg (by tauto : ¬(url = "" ∨ pb = ""))]
  by_cases hany : doms.any (fun dd => strContains (urlHostname url) dd) = true
  · rw [if_pos hany]
    constructor
    · intro h
      injection h with h2
      exact ⟨hany, h2.symm⟩
    · rintro ⟨_, h2⟩
      rw [h2]
  · rw [if_neg hany]
    constructor
    · intro h
      cases h
    · rintro ⟨h1, _⟩
      exact absurd h1 hany

/-- C10: membership in get_proxy_candidates is exactly: the entry is failed
or not_found, its effective url (the recorded url, or a doi.org url
synthesized from a nonempty doi when no url is recorded) has a hostname
containing one of the configured publisher domains, and the pair carries
the proxy base concatenated with that url; entries of any other status, and
failed or not_found entries with neither url nor doi, never appear. -/
theorem get_proxy_candidates_iff (m : Manifest) (pb : String) (doms : List String)
    (pid purl : String) (hn : KeysNodup m) (hpb : pb ≠ "") :
    (pid, purl) ∈ get_proxy_candidates m pb doms ↔
      ∃ e, m.lookup pid = some e ∧ (e.status = .failed ∨ e.status = .notFound) ∧
        ∃ url, effectiveUrl e = some url ∧
          doms.any (fun dd => strContains (urlHostname url) dd) = true ∧
          purl = pb ++ url := by
  unfold get_proxy_candidates
  rw [List.mem_filterMap]
  constructor
  · rintro ⟨⟨p, e⟩, hpe, hf⟩
    unfold proxyCandFn at hf
    simp only at hf
    split at hf
    · rename_i hst
      split at hf
      · rename_i url heu
        rw [Option.map_eq_some'] at hf
        obtain ⟨pr, hrw, hpair⟩ := hf
        injection hpair with hp1 hp2
        subst hp1
        obtain ⟨hany, hpeq⟩ :=
          (rewrite_url_eq_some_iff (effectiveUrl_ne_empty heu) hpb).mp hrw
        refine ⟨e, lookup_of_mem_nodup hn hpe, hst, url, heu, hany, ?_⟩
        rw [← hp2, hpeq]
      · cases hf
    · cases hf
  · rintro ⟨e, hlk, hst, url, heu, hany, hpurl⟩
    refine ⟨(pid, e), mem_of_lookup hlk, ?_⟩
    simp only [proxyCandFn]
    rw [if_pos hst, heu]
    show Option.map (fun p => (pid, p)) (rewrite_url url pb doms) = some (pid, purl)
    rw [(rewrite_url_eq_some_iff (effectiveUrl_ne_empty heu) hpb).mpr ⟨hany, rfl⟩]
    rw [Option.map_some']
    rw [hpurl]

theorem get_proxy_candidates_iff_witness :
    ("p1", "https://proxy.example/login?url=" ++ "https://doi.org/10.1000/x") ∈
      get_proxy_candidates [("p1", entryWith .notFound "10.1000/x" "" "")]
        "https://proxy.example/login?url=" DEFAULT_PUBLISHER_DOMAINS :=
  (get_proxy_candidates_iff [("p1", entryWith .notFound "10.1000/x" "" "")]
    "https://proxy.example/login?url=" DEFAULT_PUBLISHER_DOMAINS
    "p1" ("https://proxy.example/login?url=" ++ "https://doi.org/10.1000/x")
    (by unfold KeysNodup; decide) (by decide)).mpr
    ⟨entryWith .notFound "10.1000/x" "" "", by decide, by decide,
     "https://doi.org/10.1000/x", by decide, by decide, by decide⟩

/-- C1: a manifest entry with status downloaded is selected by no phase of
the pipeline: it is excluded from the phase 1 open-access candidate set,
the phase 2 Unpaywall set (pending with doi), the phase 3 and 6 transform
sets (failed with url), the phase 4 Scholar set (pending), the phase 5
repository-API set (failed or not_found), the phase 7 and 9 sets (failed
or not_found with doi), and the phase 8 proxy set; and the retry reset
flags touch only failed and not_found entries, so the entry also stays
downloaded across them in later runs until an explicit reset of a
different kind would exist (none does). -/
theorem downloaded_never_candidate (m : Manifest) (papers : List Paper)
    (transforms : String → List String) (pb : String) (doms : List String)
    (pid : String) (hn : KeysNodup m) (hd : statusOf m pid = some .downloaded) :
    pid ∉ (pendingOpenAccess papers m).map Prod.fst ∧
    pid ∉ (get_papers_with_doi m [.pending]).map Prod.fst ∧
    pid ∉ (urlTransformCandidates transforms m).map (fun c => c.1) ∧
    pid ∉ get_pending m ∧
    pid ∉ (repoApiCandidates m).map Prod.fst ∧
    pid ∉ (get_papers_with_doi m [.failed, .notFound]).map Prod.fst ∧
    pid ∉ (get_proxy_candidates m pb doms).map Prod.fst ∧
    statusOf (resetByStatus m .failed) pid = some .downloaded ∧
    statusOf (resetByStatus m .notFound) pid = some .downloaded := by
  obtain ⟨ed, hlk, hds⟩ : ∃ ed, m.lookup pid = some ed ∧ ed.status = .downloaded := by
    unfold statusOf at hd
    cases hq : m.lookup pid with
    | none => rw [hq] at hd; cases hd
    | some e =>
      rw [hq] at hd
      simp only [Option.map_some'] at hd
      injection hd with h2
      exact ⟨e, rfl, h2⟩
  have huniq : ∀ e, (pid, e) ∈ m → e = ed := by
    intro e hme
    have hx := lookup_of_mem_nodup hn hme
    rw [hlk] at hx
    injection hx with hx2
    exact hx2.symm
  refine ⟨?_, ?_, ?_, ?_, ?_, ?_, ?_, ?_, ?_⟩
  · intro hmem
    obtain ⟨pu, hpu, hfst⟩ := List.mem_map.mp hmem
    have hflt := (List.mem_filter.mp hpu).2
    have hst : statusOf m pu.1 = some .pending := of_decide_eq_true hflt
    rw [hfst, hd] at hst
    injection hst with hst2
    cases hst2
  · intro hmem
    obtain ⟨x, hx, hfst⟩ := List.mem_map.mp hmem
    obtain ⟨⟨p, e⟩, hpe, hf⟩ := List.mem_filterMap.mp hx
    split at hf
    · rename_i hcond
      injection hf with hf2
      rw [← hf2] at hfst
      have hp : p = pid := by simpa using hfst
      have he : e = ed := huniq e (hp ▸ hpe)
      have hin := hcond.1
      rw [he, hds] at hin
      simp at hin
    · cases hf
  · intro hmem
    obtain ⟨x, hx, hfst⟩ := List.mem_map.mp hmem
    obtain ⟨⟨p, e⟩, hpe, hf⟩ := List.mem_filterMap.mp hx
    split at hf
    · rename_i hcond
      injection hf with hf2
      rw [← hf2] at hfst
      have hp : p = pid := by simpa using hfst
      have he : e = ed := huniq e (hp ▸ hpe)
      have hin := hcond.1
      rw [he, hds] at hin
      cases hin
    · cases hf
  · intro hmem
    obtain ⟨⟨p, e⟩, hpe, hf⟩ := List.mem_filterMap.mp hmem
    split at hf
    · rename_i hcond
      injection hf with hf2
      have hp : p = pid := by simpa using hf2
      have he : e = ed := huniq e (hp ▸ hpe)
      rw [he, hds] at hcond
      cases hcond
    · cases hf
  · intro hmem
    obtain ⟨⟨p, e⟩, hpe, hfst⟩ := List.mem_map.mp hmem
    have hflt := (List.mem_filter.mp hpe).2
    have hor : e.status = .failed ∨ e.status = .notFound := of_decide_eq_true hflt
    have hp : p = pid := by simpa using hfst
    have hin : (pid, e) ∈ m := hp ▸ (List.mem_filter.mp hpe).1
    have he : e = ed := huniq e hin
    rw [he, hds] at hor
    rcases hor with h | h <;> cases h
  · intro hmem
    obtain ⟨x, hx, hfst⟩ := List.mem_map.mp hmem
    obtain ⟨⟨p, e⟩, hpe, hf⟩ := List.mem_filterMap.mp hx
    split at hf
    · rename_i hcond
      injection hf with hf2
      rw [← hf2] at hfst
      have hp : p = pid := by simpa using hfst
      have he : e = ed := huniq e (hp ▸ hpe)
      have hin := hcond.1
      rw [he, hds] at hin
      simp at hin
    · cases hf
  · intro hmem
    obtain ⟨x, hx, hfst⟩ := List.mem_map.mp hmem
    obtain ⟨⟨p, e⟩, hpe, hf⟩ := List.mem_filterMap.mp hx
    unfold proxyCandFn at hf
    simp only at hf
    split at hf
    · rename_i hcond
      split at hf
      · rename_i url heu
        rw [Option.map_eq_some'] at hf
        obtain ⟨pr, _, hpair⟩ := hf
        rw [← hpair] at hfst
        have hp : p = pid := by simpa using hfst
        have he : e = ed := huniq e (hp ▸ hpe)
        rw [he, hds] at hcond
        rcases hcond with h | h <;> cases h
      · cases hf
    · cases hf
  · unfold statusOf resetByStatus
    rw [lookup_map_fst_eq _ (fun pe => by by_cases h : pe.2.status = Status.failed <;> simp [h]),
      hlk]
    simp only [Option.map_some', hds]
    simp [hds]
  · unfold statusOf resetByStatus
    rw [lookup_map_fst_eq _ (fun pe => by by_cases h : pe.2.status = Status.notFound <;> simp [h]),
      hlk]
    simp only [Option.map_some', hds]
    simp [hds]

theorem downloaded_never_candidate_witness :
    "p1" ∉ (pendingOpenAccess
        [{ paperId := "p1", title := "t", authors := "a", year := "2001",
           doi := "10.1000/x", openAccessUrl := "http://oa" }]
        [("p1", entryWith .downloaded "10.1000/x" "http://u" "pdfs/p1.pdf")]).map Prod.fst ∧
    "p1" ∉ (repoApiCandidates
        [("p1", entryWith .downloaded "10.1000/x" "http://u" "pdfs/p1.pdf")]).map Prod.fst ∧
    statusOf (resetByStatus
        [("p1", entryWith .downloaded "10.1000/x" "http://u" "pdfs/p1.pdf")] .failed) "p1" =
      some .downloaded := by
  have h := downloaded_never_candidate
    [("p1", entryWith .downloaded "10.1000/x" "http://u" "pdfs/p1.pdf")]
    [{ paperId := "p1", title := "t", authors := "a", year := "2001",
       doi := "10.1000/x", openAccessUrl := "http://oa" }]
    (fun _ => []) "https://proxy.example/" DEFAULT_PUBLISHER_DOMAINS "p1"
    (by unfold KeysNodup; decide) (by decide)
  exact ⟨h.1, h.2.2.2.2.1, h.2.2.2.2.2.2.2.1⟩

end PaperDL
